import Mathlib

/-!
Verification of the editing core of ggedit (a modal terminal text editor)
against its natural-language specification.

The Rust sources embedded here are `src/document.rs` and `src/editor.rs`.
The `Row` type lives in a source file that is not part of the provided
sources, so its operations are modelled from the specification (section 4.1).
File-system writes are modelled by an explicit `FS` collaborator recording,
per path, whether a write succeeds; each successful persist is logged as a
(path, rows) pair.  The render/highlight cache of a row is specified as a
pure function of (content, policy, search term) and carries no state any
claim depends on, so rows are modelled by their character content alone and
`Document.highlight` is the identity on the model.
-/

/-- Position in the document: zero-based column `x` and row `y`
(from `editor.rs`, `struct Position`). -/
structure Position where
  x : Nat
  y : Nat
deriving DecidableEq, Repr

/-- Search direction (from `editor.rs`, `enum SearchDirection`). -/
inductive SearchDirection where
  | Forward
  | Backward
deriving DecidableEq, Repr

/-- Modelled from the spec: `Row` (its source file is not among the provided
sources).  A row "owns its text as a sequence of Unicode scalar values"
(spec section 3); the derived render/highlight cache is a pure function of the
content and is omitted. -/
structure Row where
  chars : List Char
deriving DecidableEq, Repr

/-- Modelled from the spec: `Row.len` — "count of characters" (spec 4.1). -/
def Row.len (r : Row) : Nat := r.chars.length

/-- Modelled from the spec: `Row.insert` — "inserts character before `column`;
if `column` ≥ current length, appends at end" (spec 4.1). -/
def Row.insert (r : Row) (at_ : Nat) (c : Char) : Row :=
  if at_ ≥ r.chars.length then ⟨r.chars ++ [c]⟩
  else ⟨r.chars.take at_ ++ c :: r.chars.drop at_⟩

/-- Modelled from the spec: `Row.delete` — "removes the character at `column`
if it exists; no-op if `column` ≥ length" (spec 4.1). -/
def Row.delete (r : Row) (at_ : Nat) : Row :=
  if at_ ≥ r.chars.length then r
  else ⟨r.chars.take at_ ++ r.chars.drop (at_ + 1)⟩

/-- Modelled from the spec: `Row.split` — "truncates self to `[0, column)`,
returns a new Row containing `[column, end)`" (spec 4.1).  The mutated
original and the returned tail are given as a pair. -/
def Row.split (r : Row) (at_ : Nat) : Row × Row :=
  (⟨r.chars.take at_⟩, ⟨r.chars.drop at_⟩)

/-- Modelled from the spec: `Row.append` — "concatenates `other`'s content
onto self" (spec 4.1). -/
def Row.append (r other : Row) : Row :=
  ⟨r.chars ++ other.chars⟩

/-- Whether `q` occurs as a substring of `r` starting at character position
`i` (case-sensitive, character-position addressed, spec 4.1). -/
def Row.occursAt (r : Row) (q : List Char) (i : Nat) : Bool :=
  q.isPrefixOf (r.chars.drop i) && decide (i ≤ r.chars.length)

/-- Modelled from the spec: `Row.find` — "first occurrence of `query` at or
after `from_col` (Forward) or at or before `from_col` (Backward) within this
row only; case-sensitive substring match over character positions"
(spec 4.1).  Backward returns the occurrence closest to `from_col`. -/
def Row.find (r : Row) (q : List Char) (from_col : Nat) :
    SearchDirection → Option Nat
  | SearchDirection.Forward =>
      (List.range (r.chars.length + 1)).find? fun i =>
        decide (from_col ≤ i) && r.occursAt q i
  | SearchDirection.Backward =>
      ((List.range (r.chars.length + 1)).filter fun i =>
        decide (i ≤ from_col) && r.occursAt q i).getLast?

/-- The in-memory buffer (from `document.rs`, `struct Document`).  The
`file_type` field only selects the highlighting policy (whose source file is
not among the provided sources) and is observationally irrelevant here, so it
is omitted from the model. -/
structure Document where
  rows : List Row
  file_name : Option String
  dirty : Bool
deriving DecidableEq, Repr

/-- From `document.rs`: `Document::is_empty`. -/
def Document.is_empty (d : Document) : Bool := d.rows.isEmpty

/-- From `document.rs`: `Document::len`. -/
def Document.len (d : Document) : Nat := d.rows.length

/-- From `document.rs`: `Document::is_dirty`. -/
def Document.is_dirty (d : Document) : Bool := d.dirty

/-- From `document.rs`: `Document::row`. -/
def Document.row (d : Document) (index : Nat) : Option Row :=
  d.rows.get? index

/-- From `document.rs`: `Document::size_in_bytes` — sum over rows of
character length plus one terminator. -/
def Document.size_in_bytes (d : Document) : Nat :=
  d.rows.foldl (fun size r => size + r.len + 1) 0

/-- From `document.rs`: `Document::highlight`.  On the model (rows carry no
highlight cache, see the header) recomputing every row's highlighting does
not change the state. -/
def Document.highlight (d : Document) (_word : Option String) : Document := d

/-- From `document.rs`: `Document::insert_newline`.  Matches on
`Ord::cmp(&at.y, &self.rows.len())`: `Less` splits the row at `at.x` and
inserts the tail right after, `Equal` appends one empty row, `Greater` is a
no-op.  Note that this function does not touch the dirty flag. -/
def Document.insert_newline (d : Document) (at_ : Position) : Document :=
  if at_.y < d.rows.length then
    let current_row := d.rows.getD at_.y ⟨[]⟩
    let pair := current_row.split at_.x
    { d with rows := (d.rows.set at_.y pair.1).insertIdx (at_.y + 1) pair.2 }
  else if at_.y = d.rows.length then
    { d with rows := d.rows ++ [⟨[]⟩] }
  else d

/-- From `document.rs`: `Document::insert`.  Rejects `at.y > rows.len()`,
sets the dirty flag, delegates `'\n'` to `insert_newline`, appends a fresh
row when `at.y = rows.len()`, otherwise inserts into the existing row. -/
def Document.insert (d : Document) (at_ : Position) (c : Char) : Document :=
  if at_.y > d.rows.length then d
  else
    let d1 : Document := { d with dirty := true }
    if c = '\n' then d1.insert_newline at_
    else if at_.y = d1.rows.length then
      { d1 with rows := d1.rows ++ [Row.insert ⟨[]⟩ 0 c] }
    else
      { d1 with rows := d1.rows.set at_.y ((d1.rows.getD at_.y ⟨[]⟩).insert at_.x c) }

/-- From `document.rs`: `Document::delete`.  The result is `none` exactly
when one of the internal row accesses (`get_mut(at.y).unwrap()`, the
`remove(at.y + 1)`, the direct indexing `rows[at.y]`) would be out of
bounds, i.e. when the Rust code would panic. -/
def Document.delete (d : Document) (at_ : Position) : Option Document :=
  let len := d.rows.length
  if at_.y ≥ len then some d
  else
    match d.rows.get? at_.y with
    | none => none
    | some row =>
      if at_.x = row.len ∧ at_.y + 1 < len then
        match d.rows.get? (at_.y + 1) with
        | none => none
        | some next_row =>
          let rows1 := d.rows.eraseIdx (at_.y + 1)
          match rows1.get? at_.y with
          | none => none
          | some r =>
            some { d with dirty := true, rows := rows1.set at_.y (r.append next_row) }
      else
        match d.rows.get? at_.y with
        | none => none
        | some r =>
          some { d with dirty := true, rows := d.rows.set at_.y (r.delete at_.x) }

/-- From `document.rs`: `Document::delete_line`. -/
def Document.delete_line (d : Document) (at_ : Position) : Document :=
  if at_.y ≥ d.rows.length then d
  else { d with dirty := true, rows := d.rows.eraseIdx at_.y }

/-- The body of the `for _ in start..end` loop of `Document::find`
(`document.rs`), with the iteration count made explicit as fuel.  The direct
indexing `self.rows[position.y]` after the backward decrement is modelled
with `getD` (it is in bounds in every reachable call). -/
def Document.findLoop (d : Document) (q : List Char) (dir : SearchDirection) :
    Nat → Position → Option Position
  | 0, _ => none
  | Nat.succ n, pos =>
    match d.rows.get? pos.y with
    | none => none
    | some row =>
      match row.find q pos.x dir with
      | some x => some ⟨x, pos.y⟩
      | none =>
        match dir with
        | SearchDirection.Forward =>
            Document.findLoop d q dir n ⟨0, pos.y + 1⟩
        | SearchDirection.Backward =>
            if pos.y > 0 then
              Document.findLoop d q dir n
                ⟨(d.rows.getD (pos.y - 1) ⟨[]⟩).len, pos.y - 1⟩
            else
              Document.findLoop d q dir n pos

/-- From `document.rs`: `Document::find`.  Returns `none` immediately when
`at.y ≥ rows.len()`; otherwise runs the scan loop `end - start` times where
`start`/`end` are `at.y`/`rows.len()` for Forward and `0`/`at.y` for
Backward. -/
def Document.find (d : Document) (q : List Char) (at_ : Position)
    (dir : SearchDirection) : Option Position :=
  if at_.y ≥ d.rows.length then none
  else
    let start := if dir = SearchDirection.Forward then at_.y else 0
    let stop := if dir = SearchDirection.Forward then d.rows.length else at_.y
    Document.findLoop d q dir (stop - start) at_

/-- The FileStore collaborator (spec sections 1 and 6): for each path,
whether writing the file succeeds.  Writes are modelled atomically per
path. -/
structure FS where
  writeOk : String → Bool

/-- A log of performed writes: (path, rows persisted to it). -/
abbrev WriteLog := List (String × List Row)

/-- From `document.rs`: `Document::save`.  Writes every row followed by a
line terminator to the current `file_name`, reporting the success message
with row count and byte size, or an error when there is no file name or the
write fails.  Returns the (unchanged) document, the result, and the write
log. -/
def Document.save (fs : FS) (d : Document) :
    Document × Except String String × WriteLog :=
  match d.file_name with
  | some name =>
    if fs.writeOk name then
      (d,
       Except.ok ("\"" ++ name ++ "\" " ++ toString d.len ++ "L, "
         ++ toString d.size_in_bytes ++ "B written"),
       [(name, d.rows)])
    else (d, Except.error "io error", [])
  | none => (d, Except.error "Document has no file name", [])

/-- From `document.rs`: `Document::save_as`.  Refuses an empty, clean
document; with a given name equal to the current one it clears dirty and
saves; with a different name it substitutes the name temporarily and
restores it on both outcomes; with no current name it adopts the given name
and clears dirty; with no given name it saves and clears dirty only on
success. -/
def Document.save_as (fs : FS) (d : Document) (filename : Option String) :
    Document × Except String String × WriteLog :=
  if d.is_empty && !d.is_dirty then
    (d, Except.error "Document is empty", [])
  else
    let prev_name := d.file_name
    match filename with
    | some f =>
      match d.file_name with
      | some name =>
        if f = name then
          Document.save fs { d with dirty := false }
        else
          let r := Document.save fs { d with file_name := some f }
          ({ r.1 with file_name := prev_name }, r.2.1, r.2.2)
      | none =>
        Document.save fs { d with file_name := some f, dirty := false }
    | none =>
      let r := Document.save fs d
      match r.2.1 with
      | Except.ok m => ({ r.1 with dirty := false }, Except.ok m, r.2.2)
      | Except.error e => (r.1, Except.error e, r.2.2)

/-- The mode state machine's states (from `editor.rs`, `enum Mode`). -/
inductive Mode where
  | Normal
  | Insert
  | Command
  | Search
deriving DecidableEq, Repr

/-- Abstract key events (from `termion::event::Key`, as consumed by
`editor.rs`; Enter arrives as `Char '\n'`). -/
inductive Key where
  | Char (c : Char)
  | Ctrl (c : Char)
  | Up
  | Down
  | Left
  | Right
  | Backspace
  | Delete
  | Home
  | End
  | PageUp
  | PageDown
  | Esc
deriving DecidableEq, Repr

/-- Rust's `char::is_ascii_whitespace`: space, tab, newline, form feed,
carriage return. -/
def isAsciiWs (c : Char) : Bool :=
  c = ' ' || c = '\t' || c = '\n' || c = Char.ofNat 12 || c = '\r'

/-- Accumulating splitter over characters: collects the maximal runs of
non-whitespace characters. -/
def splitWsAux : List Char → List Char → List (List Char)
  | [], acc => if acc.isEmpty then [] else [acc.reverse]
  | c :: cs, acc =>
    if isAsciiWs c then
      if acc.isEmpty then splitWsAux cs []
      else acc.reverse :: splitWsAux cs []
    else splitWsAux cs (c :: acc)

/-- Rust's `str::split_ascii_whitespace`: the non-empty fragments between
runs of ASCII whitespace. -/
def split_ascii_whitespace (s : String) : List String :=
  (splitWsAux s.toList []).map List.asString

/-- Rust's `String::pop`: drop the last character. -/
def string_pop (s : String) : String := String.mk s.data.dropLast

/-- Rust's `str::ends_with('!')` on the first command token. -/
def ends_with_excl (t : String) : Bool := t.toList.getLast? = some '!'

/-- The editor state (from `editor.rs`, `struct Editor`).  The `terminal`
collaborator is represented by its observable size; the status message's
timestamp only drives display expiry and is omitted. -/
structure Editor where
  should_quit : Bool
  cursor_position : Position
  offset : Position
  document : Document
  status_message : String
  mode : Mode
  command_buffer : String
  position_buffer : Position
  terminal_height : Nat
  terminal_width : Nat
deriving DecidableEq, Repr

/-- From `editor.rs`: `Editor::switch_mode`.  Entering Normal clears the
command buffer and resets the status message; entering Command or Search
seeds the status line; entering Search snapshots the cursor.  Terminal
cursor-shape changes have no model state. -/
def Editor.switch_mode (e : Editor) (m : Mode) : Editor :=
  match m with
  | Mode.Normal =>
      { e with command_buffer := "", status_message := "", mode := m }
  | Mode.Insert => { e with mode := m }
  | Mode.Command => { e with status_message := ":", mode := m }
  | Mode.Search =>
      { e with position_buffer := e.cursor_position, status_message := "/", mode := m }

/-- From `editor.rs`: `Editor::move_cursor`.  Computes the new cursor from
the pressed key, then clamps the column to the target row's length. -/
def Editor.move_cursor (e : Editor) (key : Key) : Editor :=
  let p := e.cursor_position
  let height := e.document.len
  let terminal_height := e.terminal_height
  let width := match e.document.row p.y with
    | some row => row.len
    | none => 0
  let moved : Nat × Nat :=
    match key with
    | Key.Up => (p.x, p.y - 1)
    | Key.Down => (p.x, if p.y < height then p.y + 1 else p.y)
    | Key.Left =>
        if p.x > 0 then (p.x - 1, p.y)
        else if p.y > 0 then
          (match e.document.row (p.y - 1) with
           | some row => row.len
           | none => 0, p.y - 1)
        else (p.x, p.y)
    | Key.Backspace =>
        if p.x > 0 then (p.x - 1, p.y)
        else if p.y > 0 then
          (match e.document.row (p.y - 1) with
           | some row => row.len
           | none => 0, p.y - 1)
        else (p.x, p.y)
    | Key.Right =>
        if p.x < width then (p.x + 1, p.y)
        else if p.y < height then (0, p.y + 1)
        else (p.x, p.y)
    | Key.PageUp =>
        (p.x, if p.y > terminal_height then p.y - terminal_height else 0)
    | Key.PageDown =>
        (p.x, if p.y + terminal_height < height then p.y + terminal_height else height)
    | Key.Home => (0, p.y)
    | Key.End => (width, p.y)
    | Key.Char c =>
        if c = 'k' then (p.x, p.y - 1)
        else if c = 'j' then (p.x, if p.y < height then p.y + 1 else p.y)
        else if c = 'h' then
          (if p.x > 0 then (p.x - 1, p.y)
           else if p.y > 0 then
             (match e.document.row (p.y - 1) with
              | some row => row.len
              | none => 0, p.y - 1)
           else (p.x, p.y))
        else if c = 'l' then
          (if p.x < width then (p.x + 1, p.y)
           else if p.y < height then (0, p.y + 1)
           else (p.x, p.y))
        else if c = '0' then (0, p.y)
        else if c = '$' then (width, p.y)
        else (p.x, p.y)
    | _ => (p.x, p.y)
  let width2 := match e.document.row moved.2 with
    | some row => row.len
    | none => 0
  let x2 := if moved.1 > width2 then width2 else moved.1
  { e with cursor_position := ⟨x2, moved.2⟩ }

/-- The offset recomputation of `Editor::scroll` (`editor.rs`), as a pure
function of cursor, prior offset and terminal size. -/
def scrollOffset (cursor offset : Position) (width height : Nat) : Position :=
  let oy :=
    if cursor.y < offset.y then cursor.y
    else if cursor.y ≥ offset.y + height then cursor.y - height + 1
    else offset.y
  let ox :=
    if cursor.x < offset.x then cursor.x
    else if cursor.x ≥ offset.x + width then cursor.x - width + 1
    else offset.x
  ⟨ox, oy⟩

/-- From `editor.rs`: `Editor::scroll`. -/
def Editor.scroll (e : Editor) : Editor :=
  { e with offset := scrollOffset e.cursor_position e.offset e.terminal_width e.terminal_height }

/-- Outcome of processing one key event: the next state plus the keys left
unread and the writes performed, or a process panic (`crash`), or blocking
forever on a key read inside a nested loop (`stuck`). -/
inductive StepResult where
  | next (e : Editor) (rest : List Key) (writes : WriteLog)
  | crash
  | stuck
deriving DecidableEq, Repr

/-- From `editor.rs`: the nested blocking read loop of the Normal-mode `d`
gesture: a second `d` deletes the line, `w` and Escape abort, anything else
is ignored and the loop re-reads. -/
def Editor.dLoop (e : Editor) : List Key → StepResult
  | [] => StepResult.stuck
  | k :: rest =>
    if k = Key.Char 'd' then
      StepResult.next { e with document := e.document.delete_line e.cursor_position } rest []
    else if k = Key.Char 'w' then StepResult.next e rest []
    else if k = Key.Esc then StepResult.next e rest []
    else Editor.dLoop e rest

/-- From `editor.rs`: the nested search-result navigation loop entered by
Enter in Search mode: `n`/`N` move to the next/previous match (reverting the
probe move and reporting transiently on a miss, then mirroring the query
into the status line), Escape restores the entry snapshot and returns to
Normal mode. -/
def Editor.searchLoop (e : Editor) : List Key → StepResult
  | [] => StepResult.stuck
  | k :: rest =>
    if k = Key.Esc then
      let e1 := { e with cursor_position := e.position_buffer }
      let e2 := e1.switch_mode Mode.Normal
      StepResult.next { e2 with document := e2.document.highlight none } rest []
    else if k = Key.Char 'n' then
      let e1 := e.move_cursor Key.Right
      let e2 :=
        match e1.document.find e1.command_buffer.toList e1.cursor_position
            SearchDirection.Forward with
        | some pos => Editor.scroll { e1 with cursor_position := pos }
        | none =>
            let e1a := e1.move_cursor Key.Left
            { e1a with status_message :=
                ":" ++ e1a.command_buffer ++ " - No results for search" }
      Editor.searchLoop { e2 with status_message := "/" ++ e2.command_buffer } rest
    else if k = Key.Char 'N' then
      let e1 := e.move_cursor Key.Left
      let e2 :=
        match e1.document.find e1.command_buffer.toList e1.cursor_position
            SearchDirection.Backward with
        | some pos => Editor.scroll { e1 with cursor_position := pos }
        | none =>
            let e1a := e1.move_cursor Key.Right
            { e1a with status_message :=
                ":" ++ e1a.command_buffer ++ " - No results for search" }
      Editor.searchLoop { e2 with status_message := "/" ++ e2.command_buffer } rest
    else Editor.searchLoop e rest

/-- From `editor.rs`: the action selected by the first token of a parsed
command line (the `match command_buffer_args[0]` of `process_keypress`),
before the command buffer is cleared and the mode switches back to Normal.
Returns the updated editor and the write log. -/
def Editor.commandAction (fs : FS) (e : Editor) (arg0 : String)
    (args : List String) : Editor × WriteLog :=
  let force := ends_with_excl arg0
  if arg0 = "q" ∨ arg0 = "q!" then
    if e.document.is_dirty && !force then
      ({ e with status_message :=
          "File has unsaved changes. Use :wq to save and quit, or :q! to quit without saving." },
       [])
    else ({ e with should_quit := true }, [])
  else if arg0 = "w" then
    let r := e.document.save_as fs (args.get? 1)
    match r.2.1 with
    | Except.ok m => ({ e with document := r.1, status_message := m }, r.2.2)
    | Except.error m =>
        ({ e with document := r.1, status_message := "Error writing file: " ++ m }, r.2.2)
  else if arg0 = "wq" then
    let r := e.document.save_as fs (args.get? 1)
    let e1 :=
      match r.2.1 with
      | Except.ok m => { e with document := r.1, status_message := m }
      | Except.error m => { e with document := r.1, status_message := m }
    ({ e1 with should_quit := true }, r.2.2)
  else ({ e with status_message := "Unrecognized command: " ++ arg0 }, [])

/-- From `editor.rs`: the Enter handler of Command mode.  Splits the buffer
into ASCII-whitespace tokens; `command_buffer_args.get(0).unwrap()` panics
(`none`) when there is no token; otherwise dispatches on the first token,
clears the command buffer and switches back to Normal mode. -/
def Editor.commandEnter (fs : FS) (e : Editor) : Option (Editor × WriteLog) :=
  match split_ascii_whitespace e.command_buffer with
  | [] => none
  | arg0 :: restArgs =>
    let a := e.commandAction fs arg0 (arg0 :: restArgs)
    some (Editor.switch_mode { a.1 with command_buffer := "" } Mode.Normal, a.2)

/-- The Normal-mode arm of `Editor::process_keypress` (`editor.rs`): mode
mutators (`i`, `a`, `:`, `/`, `o`, `O`), the two-key `d` gesture, movement
keys, and Ctrl-Q. -/
def Editor.normalStep (_fs : FS) (e : Editor) (k : Key) (rest : List Key) : StepResult :=
  match k with
  | Key.Char c =>
      if c = 'i' then StepResult.next (e.switch_mode Mode.Insert) rest []
      else if c = 'a' then
        StepResult.next ((e.move_cursor Key.Right).switch_mode Mode.Insert) rest []
      else if c = ':' then StepResult.next (e.switch_mode Mode.Command) rest []
      else if c = '/' then StepResult.next (e.switch_mode Mode.Search) rest []
      else if c = 'o' then
        let e1 := e.move_cursor Key.End
        let e2 := { e1 with document := e1.document.insert_newline e1.cursor_position }
        StepResult.next ((e2.switch_mode Mode.Insert).move_cursor Key.Down) rest []
      else if c = 'O' then
        let e1 := e.move_cursor Key.Home
        let e2 := { e1 with document := e1.document.insert_newline e1.cursor_position }
        StepResult.next (e2.switch_mode Mode.Insert) rest []
      else if c = 'd' then e.dLoop rest
      else if c = 'h' ∨ c = 'j' ∨ c = 'k' ∨ c = 'l' then
        StepResult.next (e.move_cursor k) rest []
      else StepResult.next e rest []
  | Key.Up => StepResult.next (e.move_cursor Key.Up) rest []
  | Key.Down => StepResult.next (e.move_cursor Key.Down) rest []
  | Key.Left => StepResult.next (e.move_cursor Key.Left) rest []
  | Key.Right => StepResult.next (e.move_cursor Key.Right) rest []
  | Key.Backspace => StepResult.next (e.move_cursor Key.Backspace) rest []
  | Key.PageUp => StepResult.next (e.move_cursor Key.PageUp) rest []
  | Key.PageDown => StepResult.next (e.move_cursor Key.PageDown) rest []
  | Key.End => StepResult.next (e.move_cursor Key.End) rest []
  | Key.Home => StepResult.next (e.move_cursor Key.Home) rest []
  | Key.Ctrl c =>
      if c = 'q' then StepResult.next { e with should_quit := true } rest []
      else StepResult.next e rest []
  | _ => StepResult.next e rest []

/-- The Insert-mode arm of `Editor::process_keypress` (`editor.rs`). -/
def Editor.insertStep (_fs : FS) (e : Editor) (k : Key) (rest : List Key) : StepResult :=
  match k with
  | Key.Esc =>
      StepResult.next ((e.move_cursor Key.Left).switch_mode Mode.Normal) rest []
  | Key.Up => StepResult.next (e.move_cursor Key.Up) rest []
  | Key.Down => StepResult.next (e.move_cursor Key.Down) rest []
  | Key.Left => StepResult.next (e.move_cursor Key.Left) rest []
  | Key.Right => StepResult.next (e.move_cursor Key.Right) rest []
  | Key.Char c =>
      let e1 := { e with document := e.document.insert e.cursor_position c }
      StepResult.next (e1.move_cursor Key.Right) rest []
  | Key.Delete =>
      match e.document.delete e.cursor_position with
      | some d => StepResult.next { e with document := d } rest []
      | none => StepResult.crash
  | Key.Backspace =>
      if e.cursor_position.x > 0 ∨ e.cursor_position.y > 0 then
        let e1 := e.move_cursor Key.Left
        match e1.document.delete e1.cursor_position with
        | some d => StepResult.next { e1 with document := d } rest []
        | none => StepResult.crash
      else StepResult.next e rest []
  | _ => StepResult.next e rest []

/-- The Command-mode arm of `Editor::process_keypress` (`editor.rs`). -/
def Editor.commandStep (fs : FS) (e : Editor) (k : Key) (rest : List Key) : StepResult :=
  match k with
  | Key.Backspace =>
      let buf := string_pop e.command_buffer
      StepResult.next { e with command_buffer := buf, status_message := ":" ++ buf } rest []
  | Key.Esc =>
      StepResult.next (Editor.switch_mode { e with command_buffer := "" } Mode.Normal) rest []
  | Key.Char c =>
      if c = '\n' then
        match e.commandEnter fs with
        | none => StepResult.crash
        | some a => StepResult.next a.1 rest a.2
      else
        let buf := e.command_buffer.push c
        StepResult.next { e with command_buffer := buf, status_message := ":" ++ buf } rest []
  | _ => StepResult.next e rest []

/-- The Search-mode arm of `Editor::process_keypress` (`editor.rs`). -/
def Editor.searchStep (_fs : FS) (e : Editor) (k : Key) (rest : List Key) : StepResult :=
  match k with
  | Key.Backspace =>
      let buf := string_pop e.command_buffer
      let e1 := { e with command_buffer := buf }
      let e2 :=
        match e1.document.find buf.toList e1.cursor_position SearchDirection.Forward with
        | some pos => Editor.scroll { e1 with cursor_position := pos }
        | none => e1
      StepResult.next { e2 with status_message := "/" ++ buf } rest []
  | Key.Esc =>
      let e1 := { e with
        command_buffer := ""
        status_message := ""
        cursor_position := e.position_buffer }
      let e2 := e1.switch_mode Mode.Normal
      StepResult.next { e2 with document := e2.document.highlight none } rest []
  | Key.Char c =>
      if c = '\n' then e.searchLoop rest
      else
        let buf := e.command_buffer.push c
        let e1 := { e with command_buffer := buf }
        let e2 :=
          match e1.document.find buf.toList e1.position_buffer SearchDirection.Forward with
          | some pos =>
              Editor.scroll
                { e1 with
                  cursor_position := pos
                  document := e1.document.highlight (some buf) }
          | none =>
              { e1 with status_message := "No results for search: " ++ buf }
        StepResult.next { e2 with status_message := "/" ++ buf } rest []
  | _ => StepResult.next e rest []

/-- The per-mode key dispatch of `Editor::process_keypress` (`editor.rs`),
before the unconditional trailing `self.scroll()`. -/
def Editor.dispatch (fs : FS) (e : Editor) (k : Key) (rest : List Key) : StepResult :=
  match e.mode with
  | Mode.Normal => e.normalStep fs k rest
  | Mode.Insert => e.insertStep fs k rest
  | Mode.Command => e.commandStep fs k rest
  | Mode.Search => e.searchStep fs k rest

/-- From `editor.rs`: `Editor::process_keypress` — the per-mode dispatch
followed by the unconditional `self.scroll()`. -/
def Editor.process_keypress (fs : FS) (e : Editor) (k : Key) (rest : List Key) :
    StepResult :=
  match Editor.dispatch fs e k rest with
  | StepResult.next e1 r w => StepResult.next e1.scroll r w
  | r => r

/-- From `editor.rs`: `Editor::default` — the initial editor state for a
given document and terminal size (Normal mode, empty command buffer, origin
cursor and offset, quit flag down). -/
def Editor.initial (doc : Document) (height width : Nat) : Editor :=
  { should_quit := false
    cursor_position := ⟨0, 0⟩
    offset := ⟨0, 0⟩
    document := doc
    status_message := "Press Ctrl-Q to quit"
    mode := Mode.Normal
    command_buffer := ""
    position_buffer := ⟨0, 0⟩
    terminal_height := height
    terminal_width := width }

/-- Reference scan following the claim's words for the Forward direction:
scan the rows from `from.y` through the last row, starting at column
`from.x` in the first scanned row and at column 0 in subsequent rows. -/
def scanForward (q : List Char) : List Row → Nat → Nat → Option Position
  | [], _, _ => none
  | r :: rest, y, x =>
    match r.find q x SearchDirection.Forward with
    | some cx => some ⟨cx, y⟩
    | none => scanForward q rest (y + 1) 0

/-- Reference scan for the Backward direction as the code realizes it:
starting at row `y` with column `x`, walk rows `y, y-1, …, 1` (row 0 is
never scanned), using end-of-row as the column in every row after the
first. -/
def scanBackward (rows : List Row) (q : List Char) : Nat → Nat → Option Position
  | 0, _ => none
  | Nat.succ y, x =>
    match rows.get? (y + 1) with
    | none => none
    | some r =>
      match r.find q x SearchDirection.Backward with
      | some cx => some ⟨cx, y + 1⟩
      | none => scanBackward rows q y ((rows.getD y ⟨[]⟩).len)

/-- The editor carried by a `next` outcome, if any. -/
def StepResult.editorState : StepResult → Option Editor
  | StepResult.next e _ _ => some e
  | _ => none

/-- The write log carried by a `next` outcome, if any. -/
def StepResult.writeLog : StepResult → Option WriteLog
  | StepResult.next _ _ w => some w
  | _ => none

/-- The implicit state-machine invariant: in Normal mode the shared
command/query buffer is empty. -/
def Editor.normalBufferInv (e : Editor) : Prop :=
  e.mode = Mode.Normal → e.command_buffer = ""

/-- A FileStore on which every write succeeds. -/
def fsAll : FS := ⟨fun _ => true⟩

/-- A FileStore on which every write fails. -/
def fsNone : FS := ⟨fun _ => false⟩

/-- A clean one-row document named "a.txt". -/
def docClean : Document := ⟨[⟨['a', 'b']⟩], some "a.txt", false⟩

/-- A dirty one-row document named "a.txt". -/
def docDirty : Document := ⟨[⟨['h', 'i']⟩], some "a.txt", true⟩

/-- An unnamed one-row document containing "a". -/
def docA : Document := ⟨[⟨['a']⟩], none, false⟩

/-- A three-row document used to instantiate the search theorems. -/
def docThree : Document :=
  ⟨[⟨['a', 'b', 'c']⟩, ⟨['x', 'l', 'x']⟩, ⟨['l']⟩], none, false⟩

/-- An editor sitting in Command mode over `d` with the given buffer. -/
def cmdEditor (buf : String) (d : Document) : Editor :=
  { Editor.initial d 10 80 with mode := Mode.Command, command_buffer := buf }

/-- C9: for every query, direction, and start position whose row index is at
least the row count, `Document.find` returns `None` without scanning any
row. -/
theorem find_out_of_range_none (d : Document) (q : List Char) (p : Position)
    (dir : SearchDirection) (h : d.rows.length ≤ p.y) :
    d.find q p dir = none := by
  unfold Document.find
  rw [if_pos h]

/-- Witness for C9 at a concrete document and out-of-range position. -/
theorem find_out_of_range_none_witness :
    docA.find ['a'] ⟨0, 5⟩ SearchDirection.Forward = none :=
  find_out_of_range_none docA ['a'] ⟨0, 5⟩ SearchDirection.Forward (by decide)

/-- C10: when `at.y` is a valid row index, every internal row access of
`Document.delete` is in bounds, so the embedded function's error branch
(`none`, the panic marker) is unreachable. -/
theorem delete_in_bounds_no_panic (d : Document) (p : Position)
    (h : p.y < d.rows.length) : (d.delete p).isSome = true := by
  have hlt : ¬ (p.y ≥ d.rows.length) := by omega
  have hget : d.rows[p.y]? = some d.rows[p.y] := List.getElem?_eq_getElem h
  by_cases hc : p.x = (d.rows[p.y]).len ∧ p.y + 1 < d.rows.length
  · have hget2 : d.rows[p.y + 1]? = some d.rows[p.y + 1] :=
      List.getElem?_eq_getElem hc.2
    have hlen : (d.rows.eraseIdx (p.y + 1)).length = d.rows.length - 1 := by
      rw [List.length_eraseIdx]
      simp [hc.2]
    have hy : p.y < (d.rows.eraseIdx (p.y + 1)).length := by omega
    have hget3 : (d.rows.eraseIdx (p.y + 1))[p.y]? =
        some ((d.rows.eraseIdx (p.y + 1))[p.y]) := List.getElem?_eq_getElem hy
    simp [Document.delete, hlt, hget, hget2, hget3, hc.1, hc.2]
  · simp [Document.delete, hlt, hget, hc]

/-- Witness for C10 at a concrete document and in-range position. -/
theorem delete_in_bounds_no_panic_witness :
    (docClean.delete ⟨0, 0⟩).isSome = true :=
  delete_in_bounds_no_panic docClean ⟨0, 0⟩ (by decide)

/-- C1 (code bug): the dirty-flag invariant fails on the code. Calling
`insert_newline` directly — exactly what the Normal-mode `o` handler does —
mutates the rows of a clean document but leaves `dirty = false`, and
`save_as` with the current name clears `dirty` before saving, so a failing
save leaves `dirty = false` as well. -/
theorem dirty_flag_code_bug :
    (docClean.insert_newline ⟨0, 0⟩).rows ≠ docClean.rows ∧
    (docClean.insert_newline ⟨0, 0⟩).dirty = false ∧
    ((Editor.process_keypress fsAll (Editor.initial docClean 10 80)
        (Key.Char 'o') []).editorState.map
      (fun e => (e.document.dirty, e.document.rows)) =
        some (false, [⟨['a', 'b']⟩, ⟨[]⟩])) ∧
    (Document.save_as fsNone docDirty (some "a.txt")).2.1 =
      Except.error "io error" ∧
    (Document.save_as fsNone docDirty (some "a.txt")).1.dirty = false := by
  refine ⟨by decide, rfl, by decide, rfl, rfl⟩

/-- C2 counterexample: Backward search from a position in row 0 returns
`None` even though, per the claim, row `from.y = 0` should be scanned from
column `from.x` — where the row-level search does find the query. -/
theorem find_backward_row_zero_counterexample :
    docA.find ['a'] ⟨0, 0⟩ SearchDirection.Backward = none ∧
    0 < docA.rows.length ∧
    Row.find ⟨['a']⟩ ['a'] 0 SearchDirection.Backward = some 0 := by
  refine ⟨rfl, by decide, by decide⟩

/-- Unfolding equation for one iteration of the `Document::find` loop. -/
theorem findLoop_succ (d : Document) (q : List Char) (dir : SearchDirection)
    (n : Nat) (pos : Position) :
    Document.findLoop d q dir (n + 1) pos =
      match d.rows.get? pos.y with
      | none => none
      | some row =>
        match row.find q pos.x dir with
        | some x => some ⟨x, pos.y⟩
        | none =>
          match dir with
          | SearchDirection.Forward =>
              Document.findLoop d q dir n ⟨0, pos.y + 1⟩
          | SearchDirection.Backward =>
              if pos.y > 0 then
                Document.findLoop d q dir n
                  ⟨(d.rows.getD (pos.y - 1) ⟨[]⟩).len, pos.y - 1⟩
              else Document.findLoop d q dir n pos := rfl

/-- The forward scan loop of `Document.find` agrees with the claim's
description: rows `y` through the end, column `from.x` in the first row and
column 0 afterwards. -/
theorem findLoop_forward_eq (d : Document) (q : List Char) :
    ∀ n y x, n + y = d.rows.length →
      Document.findLoop d q SearchDirection.Forward n ⟨x, y⟩ =
        scanForward q (d.rows.drop y) y x := by
  intro n
  induction n with
  | zero =>
    intro y x h
    have hy : y = d.rows.length := by omega
    rw [hy, List.drop_length]
    rfl
  | succ n ih =>
    intro y x h
    have hy : y < d.rows.length := by omega
    have hget : d.rows[y]? = some d.rows[y] := List.getElem?_eq_getElem hy
    rw [findLoop_succ, List.drop_eq_getElem_cons hy]
    cases hfind : (d.rows[y]).find q x SearchDirection.Forward with
    | some cx => simp [scanForward, List.get?_eq_getElem?, hget, hfind]
    | none =>
      simp only [scanForward, List.get?_eq_getElem?, hget, hfind]
      exact ih (y + 1) 0 (by omega)

/-- The backward scan loop of `Document.find` (run with its actual fuel
`from.y`) scans rows `from.y, …, 1` with end-of-row columns after the first
row, and never reaches row 0. -/
theorem findLoop_backward_eq (d : Document) (q : List Char) :
    ∀ y x, y < d.rows.length →
      Document.findLoop d q SearchDirection.Backward y ⟨x, y⟩ =
        scanBackward d.rows q y x := by
  intro y
  induction y with
  | zero => intro x _; rfl
  | succ y ih =>
    intro x h
    have hget : d.rows[y + 1]? = some d.rows[y + 1] := List.getElem?_eq_getElem h
    rw [findLoop_succ]
    cases hfind : (d.rows[y + 1]).find q x SearchDirection.Backward with
    | some cx => simp [scanBackward, List.get?_eq_getElem?, hget, hfind]
    | none =>
      simp only [scanBackward, List.get?_eq_getElem?, hget, hfind,
        if_pos (Nat.succ_pos y), Nat.add_sub_cancel]
      exact ih _ (by omega)

/-- C2 (amended): for a start position inside the document, Forward search
scans rows `from.y` through the last row (column `from.x` in the first,
column 0 afterwards), while Backward search performs `from.y` iterations
walking rows `from.y, from.y − 1, …, 1` (column `from.x` in row `from.y`,
end-of-row in every earlier scanned row) — row 0 is never scanned, and
neither direction wraps around. -/
theorem find_direction_characterization (d : Document) (q : List Char)
    (p : Position) (h : p.y < d.rows.length) :
    d.find q p SearchDirection.Forward =
      scanForward q (d.rows.drop p.y) p.y p.x ∧
    d.find q p SearchDirection.Backward = scanBackward d.rows q p.y p.x := by
  constructor
  · unfold Document.find
    rw [if_neg (by omega)]
    simp only [if_pos rfl]
    exact findLoop_forward_eq d q (d.rows.length - p.y) p.y p.x (by omega)
  · unfold Document.find
    rw [if_neg (by omega)]
    have hdir : (SearchDirection.Backward = SearchDirection.Forward) = False := by
      simp
    simp only [hdir, if_false, Nat.sub_zero]
    exact findLoop_backward_eq d q p.y p.x h

/-- Witness for C2's characterization at a concrete document and start
position. -/
theorem find_direction_characterization_witness :
    docThree.find ['l'] ⟨2, 2⟩ SearchDirection.Forward =
      scanForward ['l'] (docThree.rows.drop 2) 2 2 ∧
    docThree.find ['l'] ⟨2, 2⟩ SearchDirection.Backward =
      scanBackward docThree.rows ['l'] 2 2 :=
  find_direction_characterization docThree ['l'] ⟨2, 2⟩ (by decide)

/-- C5: for a document named `a` and a different target `b`,
`save_as (some b)` directs every write to `b` — persisting the rows under
`b` whenever the write succeeds and the empty-and-clean guard passes — and
leaves `file_name = some a` afterwards, on the success path and the error
path alike. -/
theorem save_as_preserves_file_name (fs : FS) (d : Document) (a b : String)
    (hname : d.file_name = some a) (hne : b ≠ a) :
    (Document.save_as fs d (some b)).1.file_name = some a ∧
    (∀ entry ∈ (Document.save_as fs d (some b)).2.2, entry.1 = b) ∧
    ((d.is_empty && !d.is_dirty) = false → fs.writeOk b = true →
      (Document.save_as fs d (some b)).2.2 = [(b, d.rows)] ∧
      (Document.save_as fs d (some b)).2.1 =
        Except.ok ("\"" ++ b ++ "\" " ++ toString d.len ++ "L, "
          ++ toString d.size_in_bytes ++ "B written")) := by
  unfold Document.save_as
  cases hguard : (d.is_empty && !d.is_dirty) with
  | true =>
    refine ⟨hname, by simp, by simp⟩
  | false =>
    simp only [Bool.false_eq_true, if_false, hname, if_neg hne]
    cases hw : fs.writeOk b with
    | true =>
      simp [Document.save, Document.len, Document.size_in_bytes, hw]
    | false =>
      simp [Document.save, hw, hname]

/-- Witness for C5 at a concrete document, names and FileStore. -/
theorem save_as_preserves_file_name_witness :
    (Document.save_as fsAll docDirty (some "b.txt")).1.file_name =
      some "a.txt" ∧
    (Document.save_as fsAll docDirty (some "b.txt")).2.2 =
      [("b.txt", docDirty.rows)] ∧
    (Document.save_as fsAll docDirty (some "b.txt")).2.1 =
      Except.ok ("\"" ++ "b.txt" ++ "\" " ++ toString docDirty.len ++ "L, "
        ++ toString docDirty.size_in_bytes ++ "B written") := by
  have h := save_as_preserves_file_name fsAll docDirty "a.txt" "b.txt" rfl
    (by decide)
  exact ⟨h.1, (h.2.2 (by decide) rfl).1, (h.2.2 (by decide) rfl).2⟩

/-- C6 counterexample: with terminal height 0 the recomputed offset is
pushed past the cursor, so the cursor cell does not lie in
`[offset, offset + size)` on the y axis (the interval is empty). -/
theorem scroll_zero_height_counterexample :
    (scrollOffset ⟨0, 0⟩ ⟨0, 0⟩ 1 0).y = 1 ∧
    ¬ ((scrollOffset ⟨0, 0⟩ ⟨0, 0⟩ 1 0).y ≤ 0 ∧
       0 < (scrollOffset ⟨0, 0⟩ ⟨0, 0⟩ 1 0).y + 0) := by
  decide

/-- C6 (amended): the per-axis scroll rules hold for every cursor, offset
and terminal size, and the cursor cell lies within `[offset, offset + size)`
on each axis whenever that axis's size is at least 1; concretely rows = 10,
offset.y = 0, cursor.y = 15 yields offset.y = 6. -/
theorem scroll_recompute_spec (cursor offset : Position) (width height : Nat) :
    ((cursor.y < offset.y →
        (scrollOffset cursor offset width height).y = cursor.y) ∧
     (cursor.y ≥ offset.y + height →
        (scrollOffset cursor offset width height).y = cursor.y - height + 1) ∧
     (cursor.x < offset.x →
        (scrollOffset cursor offset width height).x = cursor.x) ∧
     (cursor.x ≥ offset.x + width →
        (scrollOffset cursor offset width height).x = cursor.x - width + 1) ∧
     (1 ≤ height →
        (scrollOffset cursor offset width height).y ≤ cursor.y ∧
        cursor.y < (scrollOffset cursor offset width height).y + height) ∧
     (1 ≤ width →
        (scrollOffset cursor offset width height).x ≤ cursor.x ∧
        cursor.x < (scrollOffset cursor offset width height).x + width)) ∧
    (scrollOffset ⟨0, 15⟩ ⟨0, 0⟩ 80 10).y = 6 := by
  refine ⟨⟨?_, ?_, ?_, ?_, ?_, ?_⟩, by decide⟩ <;>
    · intro h
      simp only [scrollOffset]
      split_ifs <;> omega

/-- Witness for C6 at concrete values: scrolling down by the exact overflow
and the containment guarantee at positive sizes. -/
theorem scroll_recompute_spec_witness :
    (scrollOffset ⟨0, 15⟩ ⟨0, 0⟩ 80 10).y = 15 - 10 + 1 ∧
    ((scrollOffset ⟨0, 15⟩ ⟨0, 0⟩ 80 10).y ≤ 15 ∧
      15 < (scrollOffset ⟨0, 15⟩ ⟨0, 0⟩ 80 10).y + 10) :=
  ⟨(scroll_recompute_spec ⟨0, 15⟩ ⟨0, 0⟩ 80 10).1.2.1 (by decide),
   (scroll_recompute_spec ⟨0, 15⟩ ⟨0, 0⟩ 80 10).1.2.2.2.2.1 (by decide)⟩

/-- C3 (code bug): pressing Enter in Command mode with an empty or
whitespace-only command buffer panics the process — the code unwraps
`command_buffer_args.get(0)` on an empty token list — contradicting the
spec's guarantee that no operation is fatal. -/
theorem command_enter_empty_buffer_crash :
    Editor.process_keypress fsAll (cmdEditor "" docDirty) (Key.Char '\n') [] =
      StepResult.crash ∧
    Editor.process_keypress fsAll (cmdEditor " \t " docDirty) (Key.Char '\n') [] =
      StepResult.crash := by
  decide

/-- C7 counterexample: executing `:q` on a dirty document leaves the status
message empty, not the unsaved-changes warning — the warning written by the
quit branch is wiped when `switch_mode(Normal)` resets the status. -/
theorem quit_warning_status_counterexample :
    (Editor.process_keypress fsAll (cmdEditor "q" docDirty)
        (Key.Char '\n') []).editorState.map (fun x => x.status_message) =
      some "" ∧
    "" ≠ "File has unsaved changes. Use :wq to save and quit, or :q! to quit without saving." := by
  decide

/-- C7 (amended): `:q` on a dirty document leaves `should_quit = false`
(the quit branch writes the unsaved-changes warning, but the switch back to
Normal mode resets the status message to empty); `:q!` on the same document
sets `should_quit = true`, as does `:q` on a clean document. -/
theorem quit_command_behavior (fs : FS) (e : Editor) (rest : List Key)
    (hmode : e.mode = Mode.Command) (hq : e.should_quit = false) :
    (e.command_buffer = "q" → e.document.dirty = true →
      (Editor.process_keypress fs e (Key.Char '\n') rest).editorState.map
          (fun x => (x.should_quit, x.status_message)) = some (false, "") ∧
      (e.commandAction fs "q" ["q"]).1.status_message =
        "File has unsaved changes. Use :wq to save and quit, or :q! to quit without saving.") ∧
    (e.command_buffer = "q!" → e.document.dirty = true →
      (Editor.process_keypress fs e (Key.Char '\n') rest).editorState.map
          (fun x => x.should_quit) = some true) ∧
    (e.command_buffer = "q" → e.document.dirty = false →
      (Editor.process_keypress fs e (Key.Char '\n') rest).editorState.map
          (fun x => x.should_quit) = some true) := by
  obtain ⟨sq, cp, off, doc, sm, m, cb, pb, th, tw⟩ := e
  dsimp only at hmode hq ⊢
  subst hmode hq
  obtain ⟨rows, fname, dirty⟩ := doc
  refine ⟨?_, ?_, ?_⟩
  · intro hcb hd
    dsimp only at hcb hd
    subst hcb hd
    constructor
    · simp [Editor.process_keypress, Editor.dispatch, Editor.commandStep,
        Editor.commandEnter, Editor.commandAction, Editor.switch_mode,
        Editor.scroll, StepResult.editorState, Document.is_dirty,
        (by decide : split_ascii_whitespace "q" = ["q"]),
        (by decide : ends_with_excl "q" = false)]
    · simp [Editor.commandAction, Document.is_dirty,
        (by decide : ends_with_excl "q" = false)]
  · intro hcb hd
    dsimp only at hcb hd
    subst hcb hd
    simp [Editor.process_keypress, Editor.dispatch, Editor.commandStep,
      Editor.commandEnter, Editor.commandAction, Editor.switch_mode,
      Editor.scroll, StepResult.editorState, Document.is_dirty,
      (by decide : split_ascii_whitespace "q!" = ["q!"]),
      (by decide : ends_with_excl "q!" = true)]
  · intro hcb hd
    dsimp only at hcb hd
    subst hcb hd
    simp [Editor.process_keypress, Editor.dispatch, Editor.commandStep,
      Editor.commandEnter, Editor.commandAction, Editor.switch_mode,
      Editor.scroll, StepResult.editorState, Document.is_dirty,
      (by decide : split_ascii_whitespace "q" = ["q"]),
      (by decide : ends_with_excl "q" = false)]

/-- Witness for C7 at a concrete dirty document and the `q` command. -/
theorem quit_command_behavior_witness :
    (Editor.process_keypress fsAll (cmdEditor "q" docDirty)
        (Key.Char '\n') []).editorState.map
        (fun x => (x.should_quit, x.status_message)) = some (false, "") ∧
    ((cmdEditor "q" docDirty).commandAction fsAll "q" ["q"]).1.status_message =
      "File has unsaved changes. Use :wq to save and quit, or :q! to quit without saving." :=
  (quit_command_behavior fsAll (cmdEditor "q" docDirty) [] rfl rfl).1 rfl rfl

/-- C4 counterexample: the first tokens `w!` and `wq!` do not select write
or write-then-quit — they hit the unrecognized-command branch (no write is
performed and the document stays dirty), while plain `w` does write. -/
theorem command_bang_tokens_counterexample :
    (Editor.process_keypress fsAll (cmdEditor "w!" docDirty)
        (Key.Char '\n') []).writeLog = some [] ∧
    (Editor.process_keypress fsAll (cmdEditor "w!" docDirty)
        (Key.Char '\n') []).editorState.map (fun x => x.document.dirty) =
      some true ∧
    ((cmdEditor "w!" docDirty).commandAction fsAll "w!" ["w!"]).1.status_message =
      "Unrecognized command: w!" ∧
    (Editor.process_keypress fsAll (cmdEditor "wq!" docDirty)
        (Key.Char '\n') []).writeLog = some [] ∧
    (Editor.process_keypress fsAll (cmdEditor "w" docDirty)
        (Key.Char '\n') []).writeLog = some [("a.txt", docDirty.rows)] := by
  decide

/-- C4 (amended): Enter in Command mode splits the buffer into
whitespace-separated tokens; the first token is dispatched literally:
`q`/`q!` select quit (the force flag is just "first token ends in `!`" and
only matters for `q!`), `w` selects write, `wq` selects write-then-quit,
and any other first token — including `w!` and `wq!` — produces the
unrecognized-command message; all branches clear the command buffer and
return to Normal mode, whose entry also resets the status message to
empty. -/
theorem command_enter_dispatch (fs : FS) (e : Editor) (arg0 : String)
    (restArgs : List String)
    (htok : split_ascii_whitespace e.command_buffer = arg0 :: restArgs) :
    ((e.commandEnter fs).map (fun a => a.1.mode) = some Mode.Normal ∧
     (e.commandEnter fs).map (fun a => a.1.command_buffer) = some "" ∧
     (e.commandEnter fs).map (fun a => a.1.status_message) = some "") ∧
    ((arg0 = "q" ∨ arg0 = "q!") →
      (e.commandEnter fs).map (fun a => a.2) = some [] ∧
      (e.commandEnter fs).map (fun a => a.1.should_quit) =
        some (if e.document.is_dirty && !(ends_with_excl arg0) then
          e.should_quit else true)) ∧
    (arg0 = "w" →
      (e.commandEnter fs).map (fun a => a.2) =
        some (e.document.save_as fs ((arg0 :: restArgs).get? 1)).2.2 ∧
      (e.commandEnter fs).map (fun a => a.1.document) =
        some (e.document.save_as fs ((arg0 :: restArgs).get? 1)).1 ∧
      (e.commandEnter fs).map (fun a => a.1.should_quit) = some e.should_quit) ∧
    (arg0 = "wq" →
      (e.commandEnter fs).map (fun a => a.2) =
        some (e.document.save_as fs ((arg0 :: restArgs).get? 1)).2.2 ∧
      (e.commandEnter fs).map (fun a => a.1.document) =
        some (e.document.save_as fs ((arg0 :: restArgs).get? 1)).1 ∧
      (e.commandEnter fs).map (fun a => a.1.should_quit) = some true) ∧
    (¬(arg0 = "q" ∨ arg0 = "q!" ∨ arg0 = "w" ∨ arg0 = "wq") →
      (e.commandEnter fs).map (fun a => a.2) = some [] ∧
      (e.commandEnter fs).map (fun a => a.1.document) = some e.document ∧
      (e.commandEnter fs).map (fun a => a.1.should_quit) = some e.should_quit ∧
      (e.commandAction fs arg0 (arg0 :: restArgs)).1.status_message =
        "Unrecognized command: " ++ arg0) := by
  have hce : e.commandEnter fs = some
      (Editor.switch_mode
        { (e.commandAction fs arg0 (arg0 :: restArgs)).1 with command_buffer := "" }
        Mode.Normal,
       (e.commandAction fs arg0 (arg0 :: restArgs)).2) := by
    unfold Editor.commandEnter
    rw [htok]
  rw [hce]
  refine ⟨⟨rfl, rfl, rfl⟩, ?_, ?_, ?_, ?_⟩
  · rintro (h | h) <;> subst h
    · constructor
      · simp only [Editor.commandAction, if_pos (Or.inl rfl), Option.map_some]
        cases hd : e.document.is_dirty <;>
          simp [Document.is_dirty, hd, (by decide : ends_with_excl "q" = false)]
      · simp only [Editor.commandAction, if_pos (Or.inl rfl), Option.map_some,
          Editor.switch_mode]
        cases hd : e.document.is_dirty <;>
          simp [Document.is_dirty, hd, (by decide : ends_with_excl "q" = false)]
    · constructor
      · simp only [Editor.commandAction, if_pos (Or.inr rfl), Option.map_some]
        cases hd : e.document.is_dirty <;>
          simp [Document.is_dirty, hd, (by decide : ends_with_excl "q!" = true)]
      · simp only [Editor.commandAction, if_pos (Or.inr rfl), Option.map_some,
          Editor.switch_mode]
        cases hd : e.document.is_dirty <;>
          simp [Document.is_dirty, hd, (by decide : ends_with_excl "q!" = true)]
  · intro h
    subst h
    cases hres : (Document.save_as fs e.document restArgs[0]?).2.1 <;>
      simp [Editor.commandAction, Editor.switch_mode, hres]
  · intro h
    subst h
    cases hres : (Document.save_as fs e.document restArgs[0]?).2.1 <;>
      simp [Editor.commandAction, Editor.switch_mode, hres]
  · intro h
    push_neg at h
    obtain ⟨h1, h2, h3, h4⟩ := h
    simp [Editor.commandAction, Editor.switch_mode, h1, h2, h3, h4]

/-- Witness for C4 at a concrete editor whose buffer holds an unrecognized
token. -/
theorem command_enter_dispatch_witness :
    ((cmdEditor "zz" docDirty).commandEnter fsAll).map (fun a => a.2) =
      some [] ∧
    ((cmdEditor "zz" docDirty).commandEnter fsAll).map
        (fun a => a.1.document) = some (cmdEditor "zz" docDirty).document ∧
    ((cmdEditor "zz" docDirty).commandEnter fsAll).map
        (fun a => a.1.should_quit) = some (cmdEditor "zz" docDirty).should_quit ∧
    ((cmdEditor "zz" docDirty).commandAction fsAll "zz" ["zz"]).1.status_message =
      "Unrecognized command: " ++ "zz" :=
  (command_enter_dispatch fsAll (cmdEditor "zz" docDirty) "zz" []
    (by decide)).2.2.2.2 (by decide)

/-- Every mode switch establishes the Normal-mode buffer invariant: entering
Normal clears the buffer, entering any other mode makes it vacuous. -/
theorem switch_mode_inv (e : Editor) (m : Mode) :
    (e.switch_mode m).normalBufferInv := by
  cases m <;> intro h <;> first | rfl | exact nomatch h

/-- The editor produced by executing a command line satisfies the invariant
(it always goes through `switch_mode Normal`). -/
theorem commandEnter_inv (fs : FS) (e : Editor) (a : Editor × WriteLog)
    (h : e.commandEnter fs = some a) : a.1.normalBufferInv := by
  unfold Editor.commandEnter at h
  cases htok : split_ascii_whitespace e.command_buffer with
  | nil => rw [htok] at h; exact absurd h (by simp)
  | cons a0 r =>
    rw [htok] at h
    simp only [Option.some.injEq] at h
    rw [← h]
    exact switch_mode_inv _ _

/-- The delete-line gesture loop preserves the invariant: it never touches
the mode or the command buffer. -/
theorem dLoop_inv (e : Editor) (hinv : e.normalBufferInv) :
    ∀ ks e' ks' w, e.dLoop ks = StepResult.next e' ks' w →
      e'.normalBufferInv := by
  intro ks
  induction ks with
  | nil => intro e' ks' w h; exact absurd h (by simp [Editor.dLoop])
  | cons k rest ih =>
    intro e' ks' w h
    unfold Editor.dLoop at h
    split_ifs at h
    · cases h; exact fun hN => hinv hN
    · cases h; exact fun hN => hinv hN
    · cases h; exact fun hN => hinv hN
    · exact ih e' ks' w h

/-- The search-navigation loop preserves the invariant: its only exit into
a new state goes through `switch_mode Normal`, and its recursive steps never
touch the mode or the buffer. -/
theorem searchLoop_inv :
    ∀ (ks : List Key) (e : Editor), e.normalBufferInv →
      ∀ e' ks' w, e.searchLoop ks = StepResult.next e' ks' w →
        e'.normalBufferInv := by
  intro ks
  induction ks with
  | nil => intro e hinv e' ks' w h; exact absurd h (by simp [Editor.searchLoop])
  | cons k rest ih =>
    intro e hinv e' ks' w h
    unfold Editor.searchLoop at h
    split_ifs at h
    · cases h; intro hN; rfl
    · dsimp only at h
      split at h
      · refine ih _ ?_ e' ks' w h; exact fun hN => hinv hN
      · refine ih _ ?_ e' ks' w h; exact fun hN => hinv hN
    · dsimp only at h
      split at h
      · refine ih _ ?_ e' ks' w h; exact fun hN => hinv hN
      · refine ih _ ?_ e' ks' w h; exact fun hN => hinv hN
    · exact ih _ hinv e' ks' w h

/-- The Normal-mode handler preserves the invariant. -/
theorem normalStep_inv (fs : FS) (e : Editor) (k : Key) (ks : List Key)
    (hinv : e.normalBufferInv) :
    ∀ e' ks' w, e.normalStep fs k ks = StepResult.next e' ks' w →
      e'.normalBufferInv := by
  intro e' ks' w h
  cases k <;> simp only [Editor.normalStep] at h
  case Char c =>
    split_ifs at h
    · cases h; exact switch_mode_inv _ _
    · cases h; exact switch_mode_inv _ _
    · cases h; exact switch_mode_inv _ _
    · cases h; exact switch_mode_inv _ _
    · cases h; exact fun hN => nomatch hN
    · cases h; exact switch_mode_inv _ _
    · exact dLoop_inv e hinv ks e' ks' w h
    · cases h; exact fun hN => hinv hN
    · cases h; exact fun hN => hinv hN
  case Ctrl c =>
    split_ifs at h
    · cases h; exact fun hN => hinv hN
    · cases h; exact fun hN => hinv hN
  all_goals cases h; exact fun hN => hinv hN

/-- The Insert-mode handler preserves the invariant. -/
theorem insertStep_inv (fs : FS) (e : Editor) (k : Key) (ks : List Key)
    (hinv : e.normalBufferInv) :
    ∀ e' ks' w, e.insertStep fs k ks = StepResult.next e' ks' w →
      e'.normalBufferInv := by
  intro e' ks' w h
  cases k <;> simp only [Editor.insertStep] at h
  case Esc => cases h; exact switch_mode_inv _ _
  case Delete =>
    split at h
    · cases h; exact fun hN => hinv hN
    · exact nomatch h
  case Backspace =>
    split_ifs at h
    · split at h
      · cases h; exact fun hN => hinv hN
      · exact nomatch h
    · cases h; exact fun hN => hinv hN
  all_goals cases h; exact fun hN => hinv hN

/-- The Command-mode handler establishes the invariant for any state it
produces (buffer edits keep the mode at Command; exits switch to Normal). -/
theorem commandStep_inv (fs : FS) (e : Editor) (k : Key) (ks : List Key)
    (hm : e.mode = Mode.Command) :
    ∀ e' ks' w, e.commandStep fs k ks = StepResult.next e' ks' w →
      e'.normalBufferInv := by
  intro e' ks' w h
  cases k <;> simp only [Editor.commandStep] at h
  case Backspace => cases h; exact fun hN => nomatch (hm.symm.trans hN)
  case Esc => cases h; exact switch_mode_inv _ _
  case Char c =>
    split_ifs at h
    · split at h
      · exact nomatch h
      · next a ha =>
          cases h
          exact commandEnter_inv fs e a ha
    · cases h; exact fun hN => nomatch (hm.symm.trans hN)
  all_goals cases h; exact fun hN => nomatch (hm.symm.trans hN)

/-- The Search-mode handler establishes the invariant for any state it
produces. -/
theorem searchStep_inv (fs : FS) (e : Editor) (k : Key) (ks : List Key)
    (hinv : e.normalBufferInv) (hm : e.mode = Mode.Search) :
    ∀ e' ks' w, e.searchStep fs k ks = StepResult.next e' ks' w →
      e'.normalBufferInv := by
  intro e' ks' w h
  cases k <;> simp only [Editor.searchStep] at h
  case Backspace =>
    split at h
    · cases h; exact fun hN => nomatch (hm.symm.trans hN)
    · cases h; exact fun hN => nomatch (hm.symm.trans hN)
  case Esc => cases h; exact fun _ => rfl
  case Char c =>
    split_ifs at h
    · exact searchLoop_inv ks e hinv e' ks' w h
    · split at h
      · cases h; exact fun hN => nomatch (hm.symm.trans hN)
      · cases h; exact fun hN => nomatch (hm.symm.trans hN)
  all_goals cases h; exact fun hN => nomatch (hm.symm.trans hN)

/-- The per-mode dispatch preserves the invariant. -/
theorem dispatch_inv (fs : FS) (e : Editor) (k : Key) (ks : List Key)
    (hinv : e.normalBufferInv) :
    ∀ e' ks' w, Editor.dispatch fs e k ks = StepResult.next e' ks' w →
      e'.normalBufferInv := by
  intro e' ks' w h
  unfold Editor.dispatch at h
  cases hm : e.mode <;> rw [hm] at h
  · exact normalStep_inv fs e k ks hinv e' ks' w h
  · exact insertStep_inv fs e k ks hinv e' ks' w h
  · exact commandStep_inv fs e k ks hm e' ks' w h
  · exact searchStep_inv fs e k ks hinv hm e' ks' w h

/-- Processing any key event preserves the invariant (the trailing scroll
only touches the offset). -/
theorem process_keypress_inv (fs : FS) (e : Editor) (k : Key) (ks : List Key)
    (hinv : e.normalBufferInv) :
    ∀ e' ks' w, Editor.process_keypress fs e k ks = StepResult.next e' ks' w →
      e'.normalBufferInv := by
  intro e' ks' w h
  unfold Editor.process_keypress at h
  cases hd : Editor.dispatch fs e k ks with
  | next e1 r1 w1 =>
    rw [hd] at h
    cases h
    exact fun hN => dispatch_inv fs e k ks hinv e1 _ _ hd hN
  | crash => rw [hd] at h; exact nomatch h
  | stuck => rw [hd] at h; exact nomatch h

/-- C8: in every reachable editor state whose mode is Normal the shared
command/query buffer is empty — the initial state satisfies this, and every
key event that yields a next state preserves it. -/
theorem normal_mode_buffer_invariant :
    (∀ (doc : Document) (height width : Nat),
       (Editor.initial doc height width).normalBufferInv) ∧
    (∀ (fs : FS) (e : Editor) (k : Key) (ks : List Key)
       (e' : Editor) (ks' : List Key) (w : WriteLog),
       e.normalBufferInv →
       Editor.process_keypress fs e k ks = StepResult.next e' ks' w →
       e'.normalBufferInv) :=
  ⟨fun _ _ _ _ => rfl,
   fun fs e k ks e' ks' w hinv h => process_keypress_inv fs e k ks hinv e' ks' w h⟩

/-- Witness for C8: the invariant transported through a concrete keypress
from the initial state. -/
theorem normal_mode_buffer_invariant_witness :
    Editor.normalBufferInv (Editor.scroll (Editor.initial docClean 10 80)) :=
  normal_mode_buffer_invariant.2 fsAll (Editor.initial docClean 10 80)
    (Key.Char 'x') [] (Editor.scroll (Editor.initial docClean 10 80)) [] []
    (normal_mode_buffer_invariant.1 docClean 10 80) (by decide)
